import Mathlib

/-!
Verification of the DER-VET Reliability value stream
(`MicrogridValueStreams/Reliability.py`).

The development shallowly embeds the outage-coverage engine:

* `Reliability.simulate_outage` — the recursive outage simulator
  (source lines 320-370).  Power/energy quantities are modelled as `ℚ`;
  Python exceptions are modelled with `Except String`.
* `Reliability.rolling_sum` / `Reliability.reliability_requirement` —
  the forward-looking rolling energy requirement (source lines 59-95),
  including a variant over `Option ℚ` that models pandas NaN handling.
* `Reliability.load_coverage_probability_core` — the per-start simulation
  loop, histogram and probability table of `load_coverage_probability`
  (source lines 230, 293-315).
* `Reliability.objective_constraints` (source lines 97-118), the ICE block
  of `load_coverage_probability` (lines 271-287), the ICE contribution
  share of `contribution_summary` (line 208), and the pandas `is 'ESS'`
  row filter (lines 189 and 244).
-/

namespace Reliability

/-- Aggregate physical properties of the energy storage fleet, as assembled
into the `ess_properties` dictionary of `load_coverage_probability`
(source lines 246-258) and consumed by `simulate_outage`:
charge rating (kW), discharge rating (kW), the list of round-trip
efficiencies (one per storage unit), and the operational state-of-energy
bounds (kWh). -/
structure EssProps where
  charge_max : ℚ
  discharge_max : ℚ
  rte : List ℚ
  soe_min : ℚ
  soe_max : ℚ
deriving DecidableEq, Repr

/-- Embedding of `Reliability.simulate_outage` (source lines 320-370).

Arguments mirror the Python signature: `gamma` and `dt` are the instance
attributes read by the method, `outage_left` is the remaining outage length
(the caller passes `self.max_outage_duration`, a number of hours, and the
method decrements it by 1 per step and tests `== 0`, so it is kept as `ℚ`),
`rc`/`dl` are `reliability_check` and `demand_left`, `ess` is the optional
`ess_properties` dictionary and `soe` the optional `init_soe`.

`draws` models the stream of values the global random number generator
would produce for the `random.randrange` call on source line 345; it is
threaded through the recursion unchanged because the only branch that
consults the generator (the surplus/charging branch with storage headroom)
always raises before a drawn value can influence the returned result, as
follows.  With `0 >= reliability_check[0]`, storage present and
`operation SOE max >= init_soe`, line 345 executes
`random.randrange(0, len(rte) - 1)`: for an efficiency list of length 0 or
1 this is an empty range and raises `ValueError`; for longer lists the
subsequent line 349 multiplies a scalar by the Python *list* `rte`
(the drawn `random_rte` is computed but never used), which either raises
`TypeError` or, via numpy broadcasting, turns the state of energy into an
array whose truth value is ambiguous at the next timestep's comparison —
that sub-case is modelled by the `"charge-branch"` failure marker.

Python exception modelling: comparing a number against `init_soe = None`
raises `TypeError`; indexing `demand_left[0]` when `demand_left` is
exhausted but `reliability_check` is not raises `IndexError`. -/
def simulate_outage (gamma dt : ℚ) (draws : List ℕ) (outage_left : ℚ)
    (rc dl : List ℚ) (ess : Option EssProps) (soe : Option ℚ) :
    Except String ℚ :=
  match rc with
  | [] => .ok 0
  | c :: rcs =>
    if outage_left = 0 then .ok 0
    else
      match dl with
      | [] => .error "IndexError"
      | d :: dls =>
        if 0 ≥ c then
          match ess, soe with
          | some p, some s =>
            if p.soe_max ≥ s then
              .error (if p.rte.length ≤ 1 then "ValueError" else "charge-branch")
            else
              (simulate_outage gamma dt draws (outage_left - 1) rcs dls ess (some s)).map
                (fun v => dt + v)
          | some _, none => .error "TypeError"
          | none, _ =>
            (simulate_outage gamma dt draws (outage_left - 1) rcs dls ess soe).map
              (fun v => dt + v)
        else
          match ess, soe with
          | some p, some s =>
            if 0 ≥ c * gamma - s then
              let discharge_possible := (s - p.soe_min) / dt
              let discharge := min (min discharge_possible d) p.discharge_max
              if discharge < d then .ok 0
              else
                (simulate_outage gamma dt draws (outage_left - 1) rcs dls ess
                    (some (s - discharge * dt))).map (fun v => dt + v)
            else .ok 0
          | some _, none => .error "TypeError"
          | none, _ => .ok 0
termination_by structural rc

/-- Number of timesteps covered by `simulate_outage` when no storage takes
part (`ess_properties = None`): the simulation keeps going exactly while
`reliability_check` remains non-positive, the data lasts and the remaining
outage budget has not counted down to zero. -/
def noess_run (outage_left : ℚ) : List ℚ → ℕ
  | [] => 0
  | c :: rcs =>
    if outage_left = 0 then 0
    else if 0 ≥ c then noess_run (outage_left - 1) rcs + 1
    else 0

/-- The pandas expression `series.rolling(window, min_periods=1).agg()` used
on source line 92: entry `j` aggregates the backward-looking window
`series[max(0, j+1-window) .. j]`.  `g` is the aggregation applied to the
window's entries. -/
def pandas_rolling {α β : Type} (g : List α → β) (window : ℕ) (xs : List α) :
    List β :=
  (List.range xs.length).map (fun j => g ((xs.take (j + 1)).drop (j + 1 - window)))

/-- Embedding of `Reliability.rolling_sum` (source lines 78-95), generic in
the window aggregation so that the same definition serves the plain and the
NaN-aware instantiation: reverse the series, apply the backward rolling
aggregation, and reverse the result back, so that every window is
forward-looking. -/
def rolling_apply {α β : Type} (g : List α → β) (window : ℕ) (data : List α) :
    List β :=
  (pandas_rolling g window data.reverse).reverse

/-- `Reliability.rolling_sum` on an all-finite series. -/
def rolling_sum (data : List ℚ) (window : ℕ) : List ℚ :=
  rolling_apply List.sum window data

/-- The reliability requirement computed by
`Reliability.calculate_system_requirements` (source line 70):
`rolling_sum(critical_load, coverage_timesteps) * dt`. -/
def reliability_requirement (critical_load : List ℚ) (coverage_timesteps : ℕ)
    (dt : ℚ) : List ℚ :=
  (rolling_sum critical_load coverage_timesteps).map (fun x => x * dt)

/-- pandas NaN handling of `rolling(window, min_periods=1).sum()`: a NaN
(modelled by `none`) counts as a missing observation, so a window sums its
non-NaN entries and only an all-NaN window produces NaN. -/
def nan_window_sum (window : List (Option ℚ)) : Option ℚ :=
  let valid := window.filterMap id
  if valid.isEmpty then none else some valid.sum

/-- `Reliability.rolling_sum` on a series that may contain NaNs. -/
def rolling_sum_nan (data : List (Option ℚ)) (window : ℕ) : List (Option ℚ) :=
  rolling_apply nan_window_sum window data

/-- The reliability requirement when the critical load may contain NaNs:
the multiplication by `dt` on source line 70 maps over the series,
propagating NaN entries. -/
def reliability_requirement_nan (critical_load : List (Option ℚ))
    (coverage_timesteps : ℕ) (dt : ℚ) : List (Option ℚ) :=
  (rolling_sum_nan critical_load coverage_timesteps).map
    (Option.map (fun x => x * dt))

/-- Count of simulated starts that landed in histogram bucket `j`, i.e. the
value `frequency_simulate_outage[j]` after the loop of source lines
294-301. -/
def frequency (runs : List ℕ) (j : ℕ) : ℕ :=
  runs.countP (fun m => m = j)

/-- `frequency_simulate_outage[k:].sum()` (source line 306): the histogram
array has buckets `0 .. K` where `K = int(max_outage_duration / dt)`
(source line 230). -/
def scenarios_covered (runs : List ℕ) (K k : ℕ) : ℕ :=
  (((List.range (K + 1)).drop k).map (frequency runs)).sum

/-- Embedding of the computational core of
`Reliability.load_coverage_probability` (source lines 230 and 293-315):
simulate an outage starting at every timestep, record the achieved
durations in a histogram, then convert the histogram into the
load-coverage-probability column (the returned list; its leading entry is
the constant probability 1 for a zero-length outage, source line 315).

`rc` and `dl` are the fully assembled `reliability_check` and `demand_left`
series (the PV and ICE subtractions of lines 263-287 already applied);
`tech` carries the `ess_properties` dictionary together with the
`soc` array when storage participates.

Failure modelling, faithful to the source:
* `dt = 0` raises `ZeroDivisionError` at line 230 (`int(max_outage/dt)`);
  a negative `dt` either makes line 230 build a numpy array of negative
  size (`ValueError`) or makes the `while length <= max_outage` loop of
  lines 304-310 run forever.  All of `dt ≤ 0` is mapped to one failure
  marker.  (The corner `dt < 0 ∧ max_outage < dt`, where Python would
  return the bare `[1]` column, is also mapped to the marker; nothing
  below depends on it.)
* When storage participates, line 296 stores the initial state of energy
  under the key `init_soc`, but `simulate_outage`'s parameter is named
  `init_soe`, so the `**tech_specs` call on line 297 raises `TypeError`
  on the first loop iteration (an empty series runs zero iterations).
* A bucket index exceeding `K` makes the numpy assignment of line 299
  raise `IndexError`.  `int(x)` truncation on the non-negative values
  that reach it is `Int.toNat ∘ Int.floor`.

`simulate_and_bucket` is one iteration of the loop of source lines
294-301 at start index `i`: run `simulate_outage` on the series tails and
convert the achieved duration to the histogram bucket
`int(longest_outage / dt)`, checking the bucket bound `K`.  When storage
participates (`tech = some _`), the `**tech_specs` call raises the
`TypeError` described above before the simulator runs. -/
def simulate_and_bucket (gamma dt max_outage : ℚ) (draws : List ℕ)
    (rc dl : List ℚ) (tech : Option (EssProps × List ℚ)) (K i : ℕ) :
    Except String ℕ :=
  match tech with
  | some _ => .error "TypeError"
  | none =>
    (simulate_outage gamma dt draws max_outage (rc.drop i) (dl.drop i) none
        none).bind
      (fun longest =>
        if K < (⌊longest / dt⌋).toNat then .error "IndexError"
        else .ok (⌊longest / dt⌋).toNat)

/-- The full core: simulate every start index via `simulate_and_bucket`
(short-circuiting at the first raised exception, as Python does), then
build the probability column.  For each candidate length `k·dt`
(`k = 1 .. K`, mirroring the `while length <= max_outage` loop of source
lines 304-310), the reported probability is
`frequency_simulate_outage[k:].sum() / (len(critical_load) - k + 1)`
(source lines 306-308), and the leading entry 1 is the probability of
covering a zero-length outage (source line 315). -/
def load_coverage_probability_core (gamma dt max_outage : ℚ) (draws : List ℕ)
    (rc dl : List ℚ) (tech : Option (EssProps × List ℚ)) :
    Except String (List ℚ) :=
  if dt ≤ 0 then .error "ZeroDivisionError"
  else
    match (List.range rc.length).mapM
        (simulate_and_bucket gamma dt max_outage draws rc dl tech
          ((⌊max_outage / dt⌋).toNat)) with
    | .error e => .error e
    | .ok runs =>
      .ok ((1 : ℚ) ::
        (List.range' 1 ((⌊max_outage / dt⌋).toNat)).map (fun k =>
          (scenarios_covered runs ((⌊max_outage / dt⌋).toNat) k : ℚ) /
            ((rc.length : ℚ) - (k : ℚ) + 1)))

/-- `cvx.max` over the entries of an expression vector. -/
def list_max : List ℚ → ℚ
  | [] => 0
  | x :: xs => xs.foldl max x

/-- Embedding of `Reliability.objective_constraints` (source lines 97-118).
The method returns `None` when `post_facto_only` is set (modelled by
`none`); otherwise it returns the single constraint
`cvx.NonPos(cvx.max(critical_load - tot_variable_gen) - combined_rating)`,
with `combined_rating` first reduced by `ice_rating` when the n-2 flag is
set.  The returned rational is the left-hand side of that `NonPos`
constraint (the constraint asserts it is at most 0). -/
def objective_constraints (post_facto_only n_2 : Bool) (ice_rating : ℚ)
    (critical_load tot_variable_gen : List ℚ) (combined_rating : ℚ) :
    Option ℚ :=
  if post_facto_only then none
  else
    let rating := if n_2 then combined_rating - ice_rating else combined_rating
    some (list_max (List.zipWith (fun a b => a - b) critical_load
      tot_variable_gen) - rating)

/-- Embedding of the ICE block of `load_coverage_probability` (source lines
271-287), producing the combined ICE rating subtracted from the series.
`ice_rows` is the index of the rows of `technology_summary_df` whose
`Type` equals `'ICE'`; `df_columns` is the frame's column-label list;
`size_index` is the index of `size_df`.

With the n-2 flag set and at least one ICE row, line 276 evaluates
`ice_names.index.loc[0]` — but a pandas `Index` has no attribute `loc`, so
an `AttributeError` is raised before the `num_ice == 1` test, making the
logged-error-and-return branch for two or more ICE entries (lines 280-281)
unreachable.  Without n-2, line 283 iterates `for name in ice_names` over
the *DataFrame*, which yields its column labels, and each column label is
then looked up in `size_df`'s index (a `KeyError` when absent). -/
def ice_block (n_2 : Bool) (ice_rows df_columns size_index : List String)
    (quantity power : String → ℚ) : Except String ℚ :=
  if ice_rows.length = 0 then .ok 0
  else if n_2 then .error "AttributeError"
  else
    df_columns.foldlM
      (fun acc c =>
        if c ∈ size_index then Except.ok (acc + quantity c * power c)
        else Except.error "KeyError")
      (0 : ℚ)

/-- Python's built-in `sum(iterable)` starts from the integer `0` and adds
the items in order, so summing a non-empty collection of `str` dictionary
keys raises `TypeError` at the first addition (`0 + 'PV'`), while summing
an empty collection yields `0`. -/
def python_sum_str_keys (keys : List String) : Except String ℚ :=
  match keys with
  | [] => .ok 0
  | _ :: _ => .error "TypeError"

/-- The fueled-generation share recorded by `contribution_summary` on
source line 208: `percent_usage.update({'ICE': 1 - sum(percent_usage.keys())})`
— the sum ranges over the dictionary's *keys* (the technology-name
strings), not its values.  `percent_usage` is the association list of
shares credited to the technologies processed before ICE. -/
def ice_contribution_share (percent_usage : List (String × ℚ)) :
    Except String ℚ :=
  match python_sum_str_keys (percent_usage.map Prod.fst) with
  | .error e => .error e
  | .ok s => .ok (1 - s)

/-- Labels that can live in a pandas index or be passed to `.loc`. -/
inductive PandasLabel
  | pybool (b : Bool)
  | pystr (s : String)
deriving DecidableEq, Repr

/-- The Python expression `technology_summary_df['Type'] is 'ESS'` (source
lines 189 and 244): `is` compares object identity, and a pandas Series is
never the same object as a string literal, so the expression evaluates to
the scalar `False` regardless of the frame's contents (the intended
elementwise comparison would have been `==`). -/
def type_series_is_ess : Bool := false

/-- `df.loc[label]` row selection by a scalar index label: returns the rows
carrying that label, and raises `KeyError` when the label is absent from
the index. -/
def df_loc (index : List PandasLabel) (label : PandasLabel) :
    Except String (List PandasLabel) :=
  if label ∈ index then .ok (index.filter (fun l => l == label))
  else .error "KeyError"

/-- The storage-row filter executed by both `load_coverage_probability`
(source line 244) and `contribution_summary` (source line 189):
`technology_summary_df.loc[technology_summary_df['Type'] is 'ESS']`, i.e.
`.loc` applied to the scalar boolean `False`. -/
def ess_row_filter (index : List PandasLabel) :
    Except String (List PandasLabel) :=
  df_loc index (.pybool type_series_is_ess)

theorem noess_run_le_length (outage_left : ℚ) (rc : List ℚ) :
    noess_run outage_left rc ≤ rc.length := by
  induction rc generalizing outage_left with
  | nil => simp [noess_run]
  | cons c rcs ih =>
    simp only [noess_run, List.length_cons]
    split
    · omega
    · split
      · exact Nat.succ_le_succ (ih _)
      · omega

theorem noess_run_le_nat (M : ℕ) (rc : List ℚ) :
    noess_run (M : ℚ) rc ≤ M := by
  induction rc generalizing M with
  | nil => simp [noess_run]
  | cons c rcs ih =>
    match M with
    | 0 => simp [noess_run]
    | M + 1 =>
      simp only [noess_run]
      split
      · omega
      · split
        · have : ((M : ℚ) + 1) - 1 = (M : ℚ) := by ring
          rw [show ((M + 1 : ℕ) : ℚ) - 1 = (M : ℚ) by push_cast; ring]
          exact Nat.succ_le_succ (ih M)
        · omega

/-- Where no storage participates and `demand_left` is at least as long as
`reliability_check` (as in every in-repo call), the simulator succeeds and
returns `dt` times the number of covered timesteps. -/
theorem simulate_outage_no_ess (gamma dt : ℚ) (draws : List ℕ)
    (outage_left : ℚ) (rc dl : List ℚ) (h : rc.length ≤ dl.length) :
    simulate_outage gamma dt draws outage_left rc dl none none =
      .ok (dt * (noess_run outage_left rc : ℚ)) := by
  induction rc generalizing dl outage_left with
  | nil => simp [simulate_outage, noess_run]
  | cons c rcs ih =>
    match dl with
    | [] => simp at h
    | d :: dls =>
      simp only [List.length_cons, Nat.succ_le_succ_iff] at h
      rw [simulate_outage, noess_run]
      by_cases h0 : outage_left = 0
      · simp [h0]
      · rw [if_neg h0, if_neg h0]
        by_cases hc : 0 ≥ c
        · rw [if_pos hc, if_pos hc, ih (outage_left - 1) dls h]
          simp only [Except.map, Except.ok.injEq]
          push_cast
          ring
        · rw [if_neg hc, if_neg hc]
          simp

/-- Partial converse: any successful no-storage run returns `dt` times the
covered-step count (success forces `demand_left` to last long enough). -/
theorem simulate_outage_no_ess_ok (gamma dt : ℚ) (draws : List ℕ)
    (outage_left : ℚ) (rc dl : List ℚ) (v : ℚ)
    (h : simulate_outage gamma dt draws outage_left rc dl none none = .ok v) :
    v = dt * (noess_run outage_left rc : ℚ) := by
  induction rc generalizing dl outage_left v with
  | nil =>
    simp only [simulate_outage, Except.ok.injEq] at h
    rw [noess_run]
    simp [← h]
  | cons c rcs ih =>
    simp only [simulate_outage] at h
    rw [noess_run]
    by_cases h0 : outage_left = 0
    · rw [if_pos h0] at h
      rw [if_pos h0]
      simp only [Except.ok.injEq] at h
      simp [← h]
    · rw [if_neg h0] at h
      rw [if_neg h0]
      match dl with
      | [] => simp at h
      | d :: dls =>
        simp only at h
        by_cases hc : 0 ≥ c
        · rw [if_pos hc] at h
          rw [if_pos hc]
          cases hrec : simulate_outage gamma dt draws (outage_left - 1) rcs dls none none with
          | error e => rw [hrec] at h; simp [Except.map] at h
          | ok w =>
            rw [hrec] at h
            simp only [Except.map, Except.ok.injEq] at h
            have hw := ih (outage_left - 1) dls w hrec
            subst hw
            push_cast
            rw [← h]
            ring
        · rw [if_neg hc] at h
          rw [if_neg hc]
          simp only [Except.ok.injEq] at h
          simp [← h]

theorem rolling_apply_getElem {α β : Type} (g : List α → β) (w : ℕ)
    (data : List α) (i : ℕ) (hi : i < data.length) :
    (rolling_apply g w data)[i]? = some (g (((data.drop i).take w).reverse)) := by
  have hlen : (pandas_rolling g w data.reverse).length = data.length := by
    simp [pandas_rolling]
  have hi' : i < (pandas_rolling g w data.reverse).length := by
    rw [hlen]; exact hi
  rw [rolling_apply, List.getElem?_reverse hi', hlen]
  rw [pandas_rolling, List.getElem?_map]
  have hj : data.length - 1 - i < data.reverse.length := by
    rw [List.length_reverse]; omega
  rw [List.getElem?_range hj]
  simp only [Option.map_some']
  congr 1
  rw [show data.length - 1 - i + 1 = data.length - i from by omega]
  rw [List.take_reverse, show data.length - (data.length - i) = i from by omega,
    List.drop_reverse]
  congr 1
  rw [List.length_drop]
  rcases Nat.le_total w (data.length - i) with hw | hw
  · rw [show data.length - i - (data.length - i - w) = w from by omega]
  · rw [show data.length - i - (data.length - i - w) = data.length - i from by omega,
      List.take_of_length_le (by simp [List.length_drop]),
      List.take_of_length_le (by rw [List.length_drop]; omega)]

theorem nan_window_sum_reverse (l : List (Option ℚ)) :
    nan_window_sum l.reverse = nan_window_sum l := by
  rw [nan_window_sum, nan_window_sum, List.filterMap_reverse]
  by_cases h : l.filterMap id = []
  · simp [h]
  · simp [h, List.isEmpty_iff, List.reverse_eq_nil_iff, List.sum_reverse]

/-- The value returned by `simulate_outage` does not depend on the stream of
random draws: the single randomness-consuming site (source line 345) sits
in a branch that fails before the drawn value can reach the result. -/
theorem simulate_outage_draws_eq (gamma dt : ℚ) (draws₁ draws₂ : List ℕ)
    (outage_left : ℚ) (rc dl : List ℚ) (ess : Option EssProps)
    (soe : Option ℚ) :
    simulate_outage gamma dt draws₁ outage_left rc dl ess soe =
      simulate_outage gamma dt draws₂ outage_left rc dl ess soe := by
  induction rc generalizing outage_left dl soe with
  | nil => rfl
  | cons c rcs ih =>
    simp only [simulate_outage]
    by_cases h0 : outage_left = 0
    · simp [h0]
    · simp only [if_neg h0]
      match dl with
      | [] => rfl
      | d :: dls =>
        simp only
        by_cases hc : 0 ≥ c
        · simp only [if_pos hc]
          match ess, soe with
          | some p, some s =>
            by_cases hh : p.soe_max ≥ s
            · simp [hh]
            · simp only [if_neg hh, ih]
          | some p, none => rfl
          | none, some s => simp only [ih]
          | none, none => simp only [ih]
        · simp only [if_neg hc]
          match ess, soe with
          | some p, some s =>
            by_cases hg : 0 ≥ c * gamma - s
            · simp only [if_pos hg]
              by_cases hd : min (min ((s - p.soe_min) / dt) d) p.discharge_max < d
              · simp [hd]
              · simp only [if_neg hd, ih]
            · simp [hg]
          | some p, none => rfl
          | none, some s => rfl
          | none, none => rfl

theorem frequency_cons (r j : ℕ) (rs : List ℕ) :
    frequency (r :: rs) j = frequency rs j + (if r = j then 1 else 0) := by
  simp only [frequency, List.countP_cons]
  by_cases h : r = j <;> simp [h]

theorem sum_map_add_nat (l : List ℕ) (f g : ℕ → ℕ) :
    (l.map (fun j => f j + g j)).sum = (l.map f).sum + (l.map g).sum := by
  induction l with
  | nil => simp
  | cons a l ih => simp [ih]; omega

theorem sum_indicator_range' (r : ℕ) :
    ∀ (m k : ℕ),
      ((List.range' k m).map (fun j => if r = j then (1 : ℕ) else 0)).sum =
        if k ≤ r ∧ r < k + m then 1 else 0 := by
  intro m
  induction m with
  | zero =>
    intro k
    rw [if_neg (by omega)]
    simp
  | succ m ih =>
    intro k
    rw [List.range'_succ]
    simp only [List.map_cons, List.sum_cons, ih (k + 1)]
    by_cases h : r = k
    · rw [if_pos h, if_neg (by omega), if_pos (by omega)]
    · rw [if_neg h]
      by_cases h2 : k + 1 ≤ r ∧ r < k + 1 + m
      · rw [if_pos h2, if_pos (by omega)]
      · rw [if_neg h2, if_neg (by omega)]

theorem drop_range_eq (n k : ℕ) :
    (List.range n).drop k = List.range' k (n - k) := by
  induction k with
  | zero => simp [List.range_eq_range']
  | succ k ih =>
    have h1 : (List.range n).drop (k + 1) = ((List.range n).drop k).drop 1 := by
      rw [List.drop_drop, Nat.add_comm]
    rw [h1, ih]
    cases hnk : n - k with
    | zero =>
      have : n - (k + 1) = 0 := by omega
      simp [this]
    | succ m =>
      rw [List.range'_succ]
      have : n - (k + 1) = m := by omega
      simp [this]

theorem countP_range_le (t n : ℕ) :
    (List.range n).countP (fun i => decide (i ≤ t)) = min (t + 1) n := by
  induction n with
  | zero => simp
  | succ n ih =>
    rw [List.range_succ, List.countP_append, ih]
    by_cases h : n ≤ t
    · simp [List.countP_cons, h]
      omega
    · simp [List.countP_cons, h]
      omega

theorem scenarios_covered_eq_countP (K k : ℕ) (runs : List ℕ)
    (hb : ∀ m ∈ runs, m ≤ K) :
    scenarios_covered runs K k = runs.countP (fun m => decide (k ≤ m)) := by
  induction runs with
  | nil =>
    simp only [scenarios_covered, List.countP_nil]
    have h0 : frequency ([] : List ℕ) = fun _ => 0 := by
      funext j; simp [frequency]
    rw [h0]
    simp
  | cons r rs ih =>
    have hr : r ≤ K := hb r (List.mem_cons_self r rs)
    have hrs : ∀ m ∈ rs, m ≤ K := fun m hm => hb m (List.mem_cons_of_mem r hm)
    rw [List.countP_cons, ← ih hrs]
    simp only [scenarios_covered]
    rw [show frequency (r :: rs) = fun j => frequency rs j + (if r = j then 1 else 0)
      from funext fun j => frequency_cons r j rs]
    rw [sum_map_add_nat]
    congr 1
    rw [drop_range_eq, sum_indicator_range' r (K + 1 - k) k]
    by_cases h : k ≤ r
    · rw [if_pos ⟨h, by omega⟩]
      simp [h]
    · rw [if_neg (fun hc => h hc.1)]
      simp [h]

theorem mapM_ok_of_forall {α β : Type} (f : α → Except String β) (g : α → β) :
    ∀ (xs : List α), (∀ a ∈ xs, f a = .ok (g a)) →
      xs.mapM f = .ok (xs.map g) := by
  intro xs
  induction xs with
  | nil => intro _; rfl
  | cons a l ih =>
    intro h
    rw [List.mapM_cons, h a (List.mem_cons_self a l),
      ih (fun b hb => h b (List.mem_cons_of_mem a hb))]
    rfl

theorem mapM_ok_forall₂ {α β : Type} (f : α → Except String β) :
    ∀ (xs : List α) (ys : List β), xs.mapM f = .ok ys →
      List.Forall₂ (fun a b => f a = .ok b) xs ys := by
  intro xs
  induction xs with
  | nil =>
    intro ys h
    rw [List.mapM_nil] at h
    cases h
    exact List.Forall₂.nil
  | cons a l ih =>
    intro ys h
    rw [List.mapM_cons] at h
    cases hfa : f a with
    | error e =>
      rw [hfa] at h
      simp only [bind, Except.bind, Functor.map, Except.map] at h
      cases h
    | ok b =>
      rw [hfa] at h
      cases hml : l.mapM f with
      | error e =>
        rw [hml] at h
        simp only [bind, Except.bind, Functor.map, Except.map] at h
        cases h
      | ok bs =>
        rw [hml] at h
        simp only [bind, Except.bind, Functor.map, Except.map, pure,
          Except.pure, Except.ok.injEq] at h
        subst h
        exact List.Forall₂.cons hfa (ih bs hml)

theorem forall₂_fun_eq {α β : Type} (f : α → Except String β) (g : α → β)
    (hf : ∀ a b, f a = .ok b → b = g a) :
    ∀ (xs : List α) (ys : List β),
      List.Forall₂ (fun a b => f a = .ok b) xs ys → ys = xs.map g := by
  intro xs ys h
  induction h with
  | nil => rfl
  | cons ha _ ih => simp [List.map_cons, ih, hf _ _ ha]

theorem floor_mul_div_toNat (dt : ℚ) (m : ℕ) (hdt : 0 < dt) :
    (⌊dt * (m : ℚ) / dt⌋).toNat = m := by
  rw [mul_comm, mul_div_assoc, div_self (ne_of_gt hdt), mul_one,
    Int.floor_natCast, Int.toNat_ofNat]

theorem nat_le_floor_div (M : ℕ) (dt : ℚ) (hdt : 0 < dt) (hdt1 : dt ≤ 1) :
    M ≤ (⌊(M : ℚ) / dt⌋).toNat := by
  have h1 : (M : ℚ) ≤ (M : ℚ) / dt := by
    rw [le_div_iff₀ hdt]
    calc (M : ℚ) * dt ≤ (M : ℚ) * 1 :=
          mul_le_mul_of_nonneg_left hdt1 (by positivity)
      _ = M := mul_one _
  have h2 : (M : ℤ) ≤ ⌊(M : ℚ) / dt⌋ := by
    rw [Int.le_floor]
    push_cast
    exact h1
  omega

/-- A no-storage per-start iteration succeeds and returns the covered-step
count as the bucket index whenever `demand_left` lasts long enough and the
bucket bound accommodates it. -/
theorem simulate_and_bucket_ok (gamma dt max_outage : ℚ) (draws : List ℕ)
    (rc dl : List ℚ) (K i : ℕ) (hdt : 0 < dt)
    (hdl : rc.length ≤ dl.length)
    (hbound : noess_run max_outage (rc.drop i) ≤ K) :
    simulate_and_bucket gamma dt max_outage draws rc dl none K i =
      .ok (noess_run max_outage (rc.drop i)) := by
  simp only [simulate_and_bucket]
  rw [simulate_outage_no_ess gamma dt draws max_outage _ _
    (by simp only [List.length_drop]; omega)]
  simp only [Except.bind]
  rw [floor_mul_div_toNat dt _ hdt, if_neg (by omega)]

/-- Conversely, any successful per-start iteration pins down everything:
storage cannot have participated, the bucket is the no-storage
covered-step count, and it respects the histogram bound. -/
theorem simulate_and_bucket_ok_inv (gamma dt max_outage : ℚ) (draws : List ℕ)
    (rc dl : List ℚ) (tech : Option (EssProps × List ℚ)) (K i b : ℕ)
    (hdt : 0 < dt)
    (h : simulate_and_bucket gamma dt max_outage draws rc dl tech K i = .ok b) :
    tech = none ∧ b = noess_run max_outage (rc.drop i) ∧ b ≤ K := by
  cases tech with
  | some t => simp [simulate_and_bucket] at h
  | none =>
    simp only [simulate_and_bucket] at h
    cases hs : simulate_outage gamma dt draws max_outage (rc.drop i)
        (dl.drop i) none none with
    | error e => rw [hs] at h; simp [Except.bind] at h
    | ok v =>
      rw [hs] at h
      simp only [Except.bind] at h
      have hv := simulate_outage_no_ess_ok _ _ _ _ _ _ _ hs
      subst hv
      rw [floor_mul_div_toNat dt _ hdt] at h
      by_cases hK : K < noess_run max_outage (rc.drop i)
      · rw [if_pos hK] at h; simp at h
      · rw [if_neg hK] at h
        simp only [Except.ok.injEq] at h
        subst h
        exact ⟨rfl, rfl, by omega⟩

theorem noess_run_pred_le (L : ℚ) (xs : List ℚ) (hL : L ≠ 0) :
    noess_run (L - 1) xs ≤ noess_run L xs := by
  induction xs generalizing L with
  | nil => simp [noess_run]
  | cons c rcs ih =>
    by_cases h1 : L - 1 = 0
    · simp [noess_run, h1]
    · simp only [noess_run, if_neg h1, if_neg hL]
      by_cases hc : 0 ≥ c
      · simp only [if_pos hc]
        have := ih (L - 1) h1
        omega
      · simp [hc]

theorem noess_run_shift (L c : ℚ) (rcs : List ℚ) (k : ℕ)
    (h : k + 1 ≤ noess_run L (c :: rcs)) : k ≤ noess_run L rcs := by
  rw [noess_run] at h
  by_cases hL : L = 0
  · rw [if_pos hL] at h; omega
  · rw [if_neg hL] at h
    by_cases hc : 0 ≥ c
    · rw [if_pos hc] at h
      have h2 : k ≤ noess_run (L - 1) rcs := by omega
      exact le_trans h2 (noess_run_pred_le L rcs hL)
    · rw [if_neg hc] at h; omega

theorem countP_range_eq_card_filter (n : ℕ) (p : ℕ → Prop) [DecidablePred p] :
    (List.range n).countP (fun i => decide (p i)) =
      ((Finset.range n).filter p).card := by
  induction n with
  | zero => simp
  | succ n ih =>
    rw [List.range_succ, List.countP_append, ih, Finset.range_succ,
      Finset.filter_insert]
    by_cases h : p n
    · rw [if_pos h, Finset.card_insert_of_not_mem (by simp)]
      simp [List.countP_cons, h]
    · rw [if_neg h]
      simp [List.countP_cons, h]

/-- The combinatorial heart of the coverage-curve monotonicity: moving from
candidate length `k` to `k + 1` loses at least one covered start (the
latest one) whenever any start covers `k + 1` steps, while the pool of
eligible starts shrinks by exactly one. -/
theorem coverage_count_step (n k : ℕ) (g : ℕ → ℕ)
    (hlen : ∀ i, i < n → g i ≤ n - i)
    (hshift : ∀ i, k + 1 ≤ g i → k ≤ g (i + 1))
    (hk : 1 ≤ k) :
    ((Finset.range n).filter (fun i => k + 1 ≤ g i)).card * (n + 1 - k) ≤
      ((Finset.range n).filter (fun i => k ≤ g i)).card * (n - k) := by
  rcases ((Finset.range n).filter (fun i => k + 1 ≤ g i)).eq_empty_or_nonempty
    with hAe | hAne
  · simp [hAe]
  · have hAr : ∀ i ∈ (Finset.range n).filter (fun i => k + 1 ≤ g i),
        i + 1 + k ≤ n := by
      intro i hi
      simp only [Finset.mem_filter, Finset.mem_range] at hi
      have := hlen i hi.1
      omega
    have hsub : (Finset.range n).filter (fun i => k + 1 ≤ g i) ⊆
        (Finset.range n).filter (fun i => k ≤ g i) := by
      intro i hi
      simp only [Finset.mem_filter] at *
      exact ⟨hi.1, by omega⟩
    obtain ⟨i0, hi0⟩ := hAne
    have hkn : k + 1 ≤ n := by have := hAr i0 hi0; omega
    have hM := Finset.max'_mem _
      (⟨i0, hi0⟩ : ((Finset.range n).filter (fun i => k + 1 ≤ g i)).Nonempty)
    have hM1n :
        ((Finset.range n).filter (fun i => k + 1 ≤ g i)).max' ⟨i0, hi0⟩ + 1
          < n := by
      have := hAr _ hM; omega
    have hMB :
        ((Finset.range n).filter (fun i => k + 1 ≤ g i)).max' ⟨i0, hi0⟩ + 1 ∈
          (Finset.range n).filter (fun i => k ≤ g i) := by
      simp only [Finset.mem_filter, Finset.mem_range]
      refine ⟨hM1n, ?_⟩
      have hMA : k + 1 ≤
          g (((Finset.range n).filter (fun i => k + 1 ≤ g i)).max' ⟨i0, hi0⟩) := by
        have := hM
        simp only [Finset.mem_filter] at this
        exact this.2
      exact hshift _ hMA
    have hMnA :
        ((Finset.range n).filter (fun i => k + 1 ≤ g i)).max' ⟨i0, hi0⟩ + 1 ∉
          (Finset.range n).filter (fun i => k + 1 ≤ g i) := by
      intro hc
      have := Finset.le_max' _ _ hc
      omega
    have hcard :
        ((Finset.range n).filter (fun i => k + 1 ≤ g i)).card + 1 ≤
          ((Finset.range n).filter (fun i => k ≤ g i)).card := by
      have : ((Finset.range n).filter (fun i => k + 1 ≤ g i)).card <
          ((Finset.range n).filter (fun i => k ≤ g i)).card :=
        Finset.card_lt_card
          ((Finset.ssubset_iff_of_subset hsub).2 ⟨_, hMB, hMnA⟩)
      omega
    have hAle : ((Finset.range n).filter (fun i => k + 1 ≤ g i)).card ≤
        n - k := by
      have hss : (Finset.range n).filter (fun i => k + 1 ≤ g i) ⊆
          Finset.range (n - k) := by
        intro i hi
        simp only [Finset.mem_range]
        have := hAr i hi; omega
      calc ((Finset.range n).filter (fun i => k + 1 ≤ g i)).card
          ≤ (Finset.range (n - k)).card := Finset.card_le_card hss
        _ = n - k := Finset.card_range _
    calc ((Finset.range n).filter (fun i => k + 1 ≤ g i)).card * (n + 1 - k)
        = ((Finset.range n).filter (fun i => k + 1 ≤ g i)).card * (n - k) +
            ((Finset.range n).filter (fun i => k + 1 ≤ g i)).card := by
          rw [show n + 1 - k = (n - k) + 1 from by omega]; ring
      _ ≤ ((Finset.range n).filter (fun i => k + 1 ≤ g i)).card * (n - k) +
            (n - k) := by omega
      _ = (((Finset.range n).filter (fun i => k + 1 ≤ g i)).card + 1) *
            (n - k) := by ring
      _ ≤ ((Finset.range n).filter (fun i => k ≤ g i)).card * (n - k) :=
          Nat.mul_le_mul_right _ hcard

/-- For lengths beyond one step, the covered-start count never exceeds the
eligible-start count. -/
theorem coverage_count_le (n k : ℕ) (g : ℕ → ℕ)
    (hlen : ∀ i, i < n → g i ≤ n - i) (_hk : 1 ≤ k) :
    ((Finset.range n).filter (fun i => k ≤ g i)).card ≤ n + 1 - k := by
  by_cases hkn : k ≤ n
  · have hsub : (Finset.range n).filter (fun i => k ≤ g i) ⊆
        Finset.range (n + 1 - k) := by
      intro i hi
      simp only [Finset.mem_filter, Finset.mem_range] at *
      have := hlen i hi.1
      omega
    calc ((Finset.range n).filter (fun i => k ≤ g i)).card
        ≤ (Finset.range (n + 1 - k)).card := Finset.card_le_card hsub
      _ = n + 1 - k := Finset.card_range _
  · have hempty : (Finset.range n).filter (fun i => k ≤ g i) = ∅ := by
      ext i
      simp only [Finset.mem_filter, Finset.mem_range, Finset.not_mem_empty,
        iff_false, not_and]
      intro h1 h2
      have := hlen i h1
      omega
    simp [hempty]

/-- The per-start loop body inherits the draw-independence of
`simulate_outage`. -/
theorem simulate_and_bucket_draws_eq (gamma dt max_outage : ℚ)
    (draws₁ draws₂ : List ℕ) (rc dl : List ℚ)
    (tech : Option (EssProps × List ℚ)) (K : ℕ) :
    simulate_and_bucket gamma dt max_outage draws₁ rc dl tech K =
      simulate_and_bucket gamma dt max_outage draws₂ rc dl tech K :=
  funext fun i => by
    cases tech with
    | some t => rfl
    | none =>
      simp only [simulate_and_bucket,
        simulate_outage_draws_eq gamma dt draws₁ draws₂]

end Reliability

/-- C3: for every critical-load series, every positive window
`coverage_timesteps` and every `dt`, entry `i` of the reliability
requirement is `dt` times the sum of `critical_load[i .. i+window-1]`,
clipped at the series end — the reversed backward rolling sum makes every
window forward-looking. -/
theorem c3_rolling_requirement (critical_load : List ℚ)
    (coverage_timesteps : ℕ) (dt : ℚ) (i : ℕ)
    (_hw : 0 < coverage_timesteps) (hi : i < critical_load.length) :
    (Reliability.reliability_requirement critical_load coverage_timesteps dt)[i]? =
      some (dt * ((critical_load.drop i).take coverage_timesteps).sum) := by
  rw [Reliability.reliability_requirement, List.getElem?_map,
    Reliability.rolling_sum, Reliability.rolling_apply_getElem _ _ _ _ hi]
  simp [List.sum_reverse, mul_comm]

/-- C3 witness: the spec's hand-computable five-point series
`[1, 2, 3, 4, 5]` with a two-step window and `dt = 1`:
the requirement at index 3 is `4 + 5 = 9`. -/
theorem c3_rolling_requirement_witness :
    0 < 2 ∧ 3 < [(1 : ℚ), 2, 3, 4, 5].length ∧
      (Reliability.reliability_requirement [(1 : ℚ), 2, 3, 4, 5] 2 1)[3]? =
        some (1 * (([(1 : ℚ), 2, 3, 4, 5].drop 3).take 2).sum) :=
  ⟨by norm_num, by norm_num,
    c3_rolling_requirement [(1 : ℚ), 2, 3, 4, 5] 2 1 3 (by norm_num) (by norm_num)⟩

/-- C1: the spec's concrete scenario.  Critical load `[10, 10, 10, 10]` kW,
`dt = 1` h, storage with discharge rating 15 kW, state-of-energy bounds
`[0, 20]` kWh, round-trip-efficiency list `[1]`, initial state of energy
20 kWh, no generation or PV (so `reliability_check = demand_left =
critical_load`), simulated from start index 0 with a 4-timestep horizon
(`gamma = 1`, i.e. 100 %).  The claim says the simulator returns 4 hours;
it does not: the 20 kWh of stored energy covers only the first two hours
of the 10 kW load, and at the third timestep the state of energy is 0, so
the deficit check `0 >= critical_load * gamma - soe` fails and the
recursion stops.  Covering four hours would require 40 kWh. -/
theorem c1_outage_simulator_counterexample :
    Reliability.simulate_outage 1 1 [] 4 [10, 10, 10, 10] [10, 10, 10, 10]
        (some ⟨15, 15, [1], 0, 20⟩) (some 20) ≠ .ok 4 := by
  norm_num [Reliability.simulate_outage, Except.map]

/-- C1 (amended): in the spec's concrete scenario the simulator returns
exactly 2 hours of covered duration — the storage discharges 10 kW for two
hours, reaching its lower state-of-energy bound of 0 kWh, and the third
hour cannot be covered. -/
theorem c1_outage_simulator_two_hours :
    Reliability.simulate_outage 1 1 [] 4 [10, 10, 10, 10] [10, 10, 10, 10]
        (some ⟨15, 15, [1], 0, 20⟩) (some 20) = .ok 2 := by
  norm_num [Reliability.simulate_outage, Except.map]

/-- C9 counterexample: the claim says that a critical-load series containing
a NaN makes the rolling-requirement computation fail with
`InvalidInputError` before any simulation.  In the source there is no such
validation anywhere (`rolling_sum`, lines 78-95, and `__init__`, lines
32-57, contain no check): pandas silently skips the NaN — with
`min_periods=1` the window `[1, NaN]` sums to `1` — and the computation
returns an ordinary series.  Concretely, `critical_load = [1, NaN, 2]`,
window 2, `dt = 1` yields `[1, 2, 2]` with no error of any kind. -/
theorem c9_invalid_input_counterexample :
    Reliability.reliability_requirement_nan [some 1, none, some 2] 2 1 =
      [some 1, some 2, some 2] := by
  norm_num [Reliability.reliability_requirement_nan, Reliability.rolling_sum_nan,
    Reliability.rolling_apply, Reliability.pandas_rolling,
    Reliability.nan_window_sum, List.filterMap, List.range_succ]
  exact ⟨fun h => by simp at h, fun h => by simp at h⟩

/-- C9 (amended): the rolling-requirement computation performs no input
validation at all.  NaNs in the critical load are silently skipped by the
pandas rolling sum (a forward window with at least one finite value yields
`dt` times the sum of its finite values; only an all-NaN window yields
NaN), and any `dt` — including non-positive values — is multiplied through
without error. -/
theorem c9_no_validation_nan_skipped (critical_load : List (Option ℚ))
    (coverage_timesteps : ℕ) (dt : ℚ) (i : ℕ)
    (_hw : 0 < coverage_timesteps) (hi : i < critical_load.length) :
    (Reliability.reliability_requirement_nan critical_load coverage_timesteps
        dt)[i]? =
      some
        (if ((critical_load.drop i).take coverage_timesteps).filterMap id = []
         then none
         else some
           ((((critical_load.drop i).take coverage_timesteps).filterMap
               id).sum * dt)) := by
  rw [Reliability.reliability_requirement_nan, List.getElem?_map,
    Reliability.rolling_sum_nan, Reliability.rolling_apply_getElem _ _ _ _ hi,
    Reliability.nan_window_sum_reverse, Reliability.nan_window_sum]
  by_cases h : ((critical_load.drop i).take coverage_timesteps).filterMap id = []
  · simp [h]
  · simp [h, List.isEmpty_iff]

/-- C9 witness: the amended theorem applied to the concrete NaN-bearing
series of the counterexample, at index 0. -/
theorem c9_no_validation_nan_skipped_witness :
    0 < 2 ∧ 0 < [some (1 : ℚ), none, some 2].length ∧
      (Reliability.reliability_requirement_nan [some (1 : ℚ), none, some 2] 2
          1)[0]? =
        some
          (if (([some (1 : ℚ), none, some 2].drop 0).take 2).filterMap id = []
           then none
           else some
             (((([some (1 : ℚ), none, some 2].drop 0).take 2).filterMap
                 id).sum * 1)) :=
  ⟨by norm_num, by norm_num,
    c9_no_validation_nan_skipped [some (1 : ℚ), none, some 2] 2 1 0
      (by norm_num) (by norm_num)⟩

/-- C5 (code bug): the claim — matching the simulator's docstring and the
spec's failure semantics — says the simulator never raises for any
combination of ESS properties, state of energy, and load/generation
values, with exhausted arrays acting only as an early terminal condition.
The code does raise: in the surplus/charging branch (source lines 341-349)
with storage present, state-of-energy headroom, and the single-entry
round-trip-efficiency list `[1.0]`, `random.randrange(0, len(rte) - 1)` is
`randrange(0, 0)` and raises `ValueError: empty range`.  The failing input
here is one timestep of surplus (`reliability_check = demand_left =
[-5]`), storage `{discharge max 15, charge max 15, rte [1], SOE bounds
[0, 20]}` and initial state of energy 0. -/
theorem c5_simulator_raises_value_error :
    Reliability.simulate_outage 1 1 [] 1 [-5] [-5]
        (some ⟨15, 15, [1], 0, 20⟩) (some 0) = .error "ValueError" := by
  norm_num [Reliability.simulate_outage]

/-- C7 (code bug): the claim says the fueled-generation share is computed as
1 minus the sum of the shares already credited.  Source line 208 instead
computes `1 - sum(percent_usage.keys())`, summing the *key strings*; as
soon as any other technology has been credited (here PV with share 1/2)
Python raises `TypeError` (`0 + 'PV'`), so no ICE share is recorded at
all. -/
theorem c7_ice_share_type_error :
    Reliability.ice_contribution_share [("PV", 1/2)] = .error "TypeError" := by
  rfl

/-- C8 counterexample: the claim requires every code path that consumes the
n-2 flag to report a fatal configuration error when the portfolio's
dispatchable-generation categories make n-2 ill-defined.  The sizing
constraint path `objective_constraints` (source lines 112-118) consumes
the flag with no such check in any case: with `post_facto_only = False`,
`n_2` set, `ice_rating = 5`, net load `[12, 10]` and combined rating 20 it
silently returns the ordinary constraint expression `12 - (20 - 5) = -3`
instead of any error. -/
theorem c8_n2_sizing_counterexample :
    Reliability.objective_constraints false true 5 [12, 10] [0, 0] 20 =
      some (-3) := by
  norm_num [Reliability.objective_constraints, Reliability.list_max]

/-- C8 (amended): in the coverage-curve path, whenever n-2 contingency is
requested and at least one ICE technology row exists, the analysis aborts
with an `AttributeError` raised by `ice_names.index.loc[0]` (source line
276, a pandas `Index` has no `.loc`) before the count of ICE categories is
even examined — the logged configuration-error branch for two or more ICE
entries (lines 280-281) is unreachable.  The sizing-constraint path
(`objective_constraints`) applies the n-2 derating without any check or
error report. -/
theorem c8_n2_ice_attribute_error (ice_rows df_columns size_index : List String)
    (quantity power : String → ℚ) (h : ice_rows ≠ []) :
    Reliability.ice_block true ice_rows df_columns size_index quantity power =
      .error "AttributeError" := by
  rw [Reliability.ice_block, if_neg (by simpa using h), if_pos rfl]

/-- C8 witness: the amended theorem at a one-row ICE portfolio. -/
theorem c8_n2_ice_attribute_error_witness :
    ["ice gen"] ≠ ([] : List String) ∧
      Reliability.ice_block true ["ice gen"] ["Type"] []
          (fun _ => 0) (fun _ => 0) = .error "AttributeError" :=
  ⟨by simp,
    c8_n2_ice_attribute_error ["ice gen"] ["Type"] [] (fun _ => 0) (fun _ => 0)
      (by simp)⟩

/-- C10: in both the coverage-curve builder (source line 244) and the
contribution attributor (source line 189) the storage filter
`technology_summary_df['Type'] is 'ESS'` is a Python identity comparison
between a Series object and a string literal, hence the scalar `False`;
`.loc[False]` on a technology index that does not contain the boolean
label `False` therefore raises `KeyError`, and storage rows are never
selected by type equality in either operation. -/
theorem c10_ess_filter_key_error (index : List Reliability.PandasLabel)
    (h : Reliability.PandasLabel.pybool false ∉ index) :
    Reliability.ess_row_filter index = .error "KeyError" := by
  simp only [Reliability.ess_row_filter, Reliability.df_loc,
    Reliability.type_series_is_ess]
  rw [if_neg h]

/-- C10 witness: a technology summary indexed by ordinary technology-name
strings. -/
theorem c10_ess_filter_key_error_witness :
    Reliability.PandasLabel.pybool false ∉
        [Reliability.PandasLabel.pystr "battery 1",
          Reliability.PandasLabel.pystr "pv 1"] ∧
      Reliability.ess_row_filter
          [Reliability.PandasLabel.pystr "battery 1",
            Reliability.PandasLabel.pystr "pv 1"] = .error "KeyError" :=
  ⟨by simp,
    c10_ess_filter_key_error
      [Reliability.PandasLabel.pystr "battery 1",
        Reliability.PandasLabel.pystr "pv 1"] (by simp)⟩

/-- C6: each per-start outage simulation, and the whole coverage-curve
computation built on it, is a deterministic pure function of the listed
inputs.  The only stateful ingredient the source consults is the global
random number generator (source line 345); modelling its draws as an
explicit stream, two runs that differ only in that stream — in particular,
two repeated runs on identical start index, capability snapshot and time
series — return identical results. -/
theorem c6_coverage_deterministic (draws₁ draws₂ : List ℕ)
    (gamma dt max_outage outage_left : ℚ) (rc dl : List ℚ)
    (ess : Option Reliability.EssProps) (soe : Option ℚ)
    (tech : Option (Reliability.EssProps × List ℚ)) :
    Reliability.simulate_outage gamma dt draws₁ outage_left rc dl ess soe =
        Reliability.simulate_outage gamma dt draws₂ outage_left rc dl ess soe ∧
      Reliability.load_coverage_probability_core gamma dt max_outage draws₁
          rc dl tech =
        Reliability.load_coverage_probability_core gamma dt max_outage draws₂
          rc dl tech := by
  refine ⟨Reliability.simulate_outage_draws_eq _ _ _ _ _ _ _ _ _, ?_⟩
  simp only [Reliability.load_coverage_probability_core,
    Reliability.simulate_and_bucket_draws_eq gamma dt max_outage draws₁ draws₂]

/-- C2: for every candidate outage length `L = k·dt` (`k = 1 .. K`, stepping
by `dt` up to `max_outage_duration`), the coverage probability reported by
the coverage-curve builder equals the number of simulated starts whose
achieved duration is at least `L` (the achieved duration of start `i`
being `dt · noess_run max_outage (rc.drop i)`, by
`Reliability.simulate_outage_no_ess`), divided by the number of eligible
starts, namely those with at least `L` of remaining data after them —
starts too close to the end of the series can never reach length `L` and
are thereby excluded from the denominator rather than counted as failures.

Hypotheses delimit the configurations on which the builder completes:
storage absent (with storage the builder raises before simulating, see
`Reliability.load_coverage_probability_core`), a whole number of hours of
maximum outage duration with `0 < dt ≤ 1` (so the histogram bound is never
exceeded), `demand_left` at least as long as the series, and a candidate
length within both the analysed range and the data. -/
theorem c2_probability_formula (gamma dt max_outage : ℚ) (draws : List ℕ)
    (rc dl : List ℚ) (k M : ℕ)
    (hdt : 0 < dt) (hdt1 : dt ≤ 1) (hM : max_outage = (M : ℚ))
    (hdl : rc.length ≤ dl.length) (hk1 : 1 ≤ k)
    (hkK : k ≤ (⌊max_outage / dt⌋).toNat) (hkn : k ≤ rc.length) :
    ∃ curve,
      Reliability.load_coverage_probability_core gamma dt max_outage draws rc
          dl none = .ok curve ∧
        curve[k]? = some
          ((((List.range rc.length).countP (fun i =>
              decide (k ≤ Reliability.noess_run max_outage (rc.drop i)))) : ℚ) /
            (((List.range rc.length).countP (fun i =>
              decide (k ≤ rc.length - i))) : ℚ)) := by
  have hbound : ∀ i,
      Reliability.noess_run max_outage (rc.drop i) ≤
        (⌊max_outage / dt⌋).toNat := by
    intro i
    have h1 : Reliability.noess_run max_outage (rc.drop i) ≤ M := by
      rw [hM]; exact Reliability.noess_run_le_nat M _
    have h2 : M ≤ (⌊max_outage / dt⌋).toNat := by
      rw [hM]; exact Reliability.nat_le_floor_div M dt hdt hdt1
    omega
  have hpoint : ∀ i ∈ List.range rc.length,
      Reliability.simulate_and_bucket gamma dt max_outage draws rc dl none
          ((⌊max_outage / dt⌋).toNat) i =
        .ok (Reliability.noess_run max_outage (rc.drop i)) := by
    intro i _
    exact Reliability.simulate_and_bucket_ok gamma dt max_outage draws rc dl
      _ i hdt hdl (hbound i)
  have hmap := Reliability.mapM_ok_of_forall _
    (fun i => Reliability.noess_run max_outage (rc.drop i))
    (List.range rc.length) hpoint
  refine ⟨(1 : ℚ) ::
      (List.range' 1 ((⌊max_outage / dt⌋).toNat)).map (fun k =>
        (Reliability.scenarios_covered
            ((List.range rc.length).map
              (fun i => Reliability.noess_run max_outage (rc.drop i)))
            ((⌊max_outage / dt⌋).toNat) k : ℚ) /
          ((rc.length : ℚ) - (k : ℚ) + 1)), ?_, ?_⟩
  · rw [Reliability.load_coverage_probability_core, if_neg (not_le.mpr hdt),
      hmap]
  · obtain ⟨j, rfl⟩ : ∃ j, k = j + 1 := ⟨k - 1, by omega⟩
    rw [List.getElem?_cons_succ, List.getElem?_map,
      List.getElem?_range' 1 1 (show j < (⌊max_outage / dt⌋).toNat by omega),
      Option.map_some']
    congr 1
    rw [show 1 + 1 * j = j + 1 from by omega]
    have hruns : ∀ m ∈ (List.range rc.length).map
        (fun i => Reliability.noess_run max_outage (rc.drop i)),
        m ≤ (⌊max_outage / dt⌋).toNat := by
      intro m hm
      obtain ⟨i, _, rfl⟩ := List.mem_map.mp hm
      exact hbound i
    rw [Reliability.scenarios_covered_eq_countP _ _ _ hruns, List.countP_map]
    have hden : (List.range rc.length).countP
        (fun i => decide (j + 1 ≤ rc.length - i)) = rc.length + 1 - (j + 1) := by
      rw [List.countP_congr (fun i hi => ?_), Reliability.countP_range_le
        (rc.length - (j + 1)) rc.length]
      · omega
      · have hi' : i < rc.length := List.mem_range.mp hi
        constructor <;> intro hx <;> simp_all <;> omega
    rw [hden]
    have hcast : ((rc.length + 1 - (j + 1) : ℕ) : ℚ) =
        (rc.length : ℚ) - (j + 1 : ℕ) + 1 := by
      rw [Nat.cast_sub (by omega)]
      push_cast
      ring
    rw [hcast]
    rfl

/-- C2 witness: the formula at the concrete series `[-1, -1, 1]`
(two surplus timesteps then a deficit), `dt = 1` h, maximum outage
duration 2 h, candidate length 1 h: two of the three starts achieve at
least one timestep, and all three starts are eligible. -/
theorem c2_probability_formula_witness :
    ∃ curve,
      Reliability.load_coverage_probability_core 1 1 2 [] [-1, -1, 1]
          [-1, -1, 1] none = .ok curve ∧
        curve[1]? = some
          ((((List.range [(-1 : ℚ), -1, 1].length).countP (fun i =>
              decide (1 ≤ Reliability.noess_run 2 ([(-1 : ℚ), -1, 1].drop i)))) : ℚ) /
            (((List.range [(-1 : ℚ), -1, 1].length).countP (fun i =>
              decide (1 ≤ [(-1 : ℚ), -1, 1].length - i))) : ℚ)) :=
  c2_probability_formula 1 1 2 [] [-1, -1, 1] [-1, -1, 1] 1 2
    (by norm_num) (by norm_num) (by norm_num) (by norm_num) (by norm_num)
    (by norm_num) (by norm_num)

theorem forall₂_mem_right {α β : Type} {R : α → β → Prop} {xs : List α}
    {ys : List β} (h : List.Forall₂ R xs ys) :
    ∀ b ∈ ys, ∃ a ∈ xs, R a b := by
  induction h with
  | nil => intro b hb; cases hb
  | cons ha _ ih =>
    intro b hb
    rcases List.mem_cons.mp hb with rfl | hb'
    · exact ⟨_, List.mem_cons_self _ _, ha⟩
    · obtain ⟨a, ha', hR⟩ := ih b hb'
      exact ⟨a, List.mem_cons_of_mem _ ha', hR⟩

/-- C4: every load-coverage curve the builder returns starts at probability
1 for a zero-length outage and is monotonically non-increasing in outage
length.  The hypothesis `K ≤ len` confines the statement to analyses whose
maximum outage duration fits inside the data (otherwise the source divides
by zero or a negative count near the boundary).  The monotonicity is not
an algebraic triviality: both the covered-start count and the eligible
denominator shrink with the length; the proof rests on the covered-count
dropping by at least one per extra step whenever it is positive
(`Reliability.coverage_count_step`). -/
theorem c4_curve_monotone (gamma dt max_outage : ℚ) (draws : List ℕ)
    (rc dl : List ℚ) (tech : Option (Reliability.EssProps × List ℚ))
    (curve : List ℚ)
    (hK : (⌊max_outage / dt⌋).toNat ≤ rc.length)
    (h : Reliability.load_coverage_probability_core gamma dt max_outage draws
        rc dl tech = .ok curve) :
    curve.head? = some 1 ∧ List.Chain' (fun a b => b ≤ a) curve := by
  rw [Reliability.load_coverage_probability_core] at h
  by_cases hdt : dt ≤ 0
  · rw [if_pos hdt] at h; cases h
  rw [if_neg hdt] at h
  push_neg at hdt
  cases hm : (List.range rc.length).mapM
      (Reliability.simulate_and_bucket gamma dt max_outage draws rc dl tech
        ((⌊max_outage / dt⌋).toNat)) with
  | error e => rw [hm] at h; cases h
  | ok runs =>
    rw [hm] at h
    simp only [Except.ok.injEq] at h
    subst h
    refine ⟨rfl, ?_⟩
    have hf2 := Reliability.mapM_ok_forall₂ _ _ _ hm
    cases tech with
    | some t =>
      rcases Nat.eq_zero_or_pos rc.length with hn | hn
      · have hK0 : (⌊max_outage / dt⌋).toNat = 0 := by omega
        rw [hK0]
        simp
      · exfalso
        obtain ⟨m, hm'⟩ : ∃ m, rc.length = m + 1 := ⟨rc.length - 1, by omega⟩
        rw [hm', List.range_succ_eq_map, List.mapM_cons] at hm
        simp [Reliability.simulate_and_bucket, bind, Except.bind] at hm
    | none =>
      have hg : runs = (List.range rc.length).map
          (fun i => Reliability.noess_run max_outage (rc.drop i)) :=
        Reliability.forall₂_fun_eq _ _
          (fun i b hb =>
            (Reliability.simulate_and_bucket_ok_inv gamma dt max_outage draws
              rc dl none _ i b hdt hb).2.1) _ _ hf2
      have hball : ∀ m ∈ runs, m ≤ (⌊max_outage / dt⌋).toNat := by
        intro m hmem
        obtain ⟨i, _, hok⟩ := forall₂_mem_right hf2 m hmem
        exact (Reliability.simulate_and_bucket_ok_inv gamma dt max_outage
          draws rc dl none _ i m hdt hok).2.2
      have hlen : ∀ i, i < rc.length →
          Reliability.noess_run max_outage (rc.drop i) ≤ rc.length - i := by
        intro i _
        have := Reliability.noess_run_le_length max_outage (rc.drop i)
        simpa [List.length_drop] using this
      have hshift : ∀ k i, k + 1 ≤ Reliability.noess_run max_outage (rc.drop i) →
          k ≤ Reliability.noess_run max_outage (rc.drop (i + 1)) := by
        intro k i hki
        by_cases hi : i < rc.length
        · have hcons : rc.drop i = rc[i] :: rc.drop (i + 1) :=
            List.drop_eq_getElem_cons hi
          rw [hcons] at hki
          exact Reliability.noess_run_shift _ _ _ _ hki
        · exfalso
          rw [List.drop_of_length_le (by omega)] at hki
          simp [Reliability.noess_run] at hki
      have hfval : ∀ k,
          (Reliability.scenarios_covered runs ((⌊max_outage / dt⌋).toNat) k : ℚ) =
            (((Finset.range rc.length).filter
              (fun i => k ≤ Reliability.noess_run max_outage (rc.drop i))).card : ℚ) := by
        intro k
        rw [Reliability.scenarios_covered_eq_countP _ _ _ hball, hg,
          List.countP_map]
        rw [show ((fun m => decide (k ≤ m)) ∘
            fun i => Reliability.noess_run max_outage (rc.drop i)) =
          fun i => decide (k ≤ Reliability.noess_run max_outage (rc.drop i))
          from rfl]
        rw [Reliability.countP_range_eq_card_filter]
      have hcast : ∀ k : ℕ, 1 ≤ k → k ≤ rc.length →
          ((rc.length : ℚ) - (k : ℚ) + 1) = ((rc.length + 1 - k : ℕ) : ℚ) := by
        intro k _ hk2
        rw [Nat.cast_sub (by omega)]
        push_cast
        ring
      have hden_pos : ∀ k : ℕ, 1 ≤ k → k ≤ rc.length →
          (0 : ℚ) < (rc.length : ℚ) - (k : ℚ) + 1 := by
        intro k hk1 hk2
        rw [hcast k hk1 hk2]
        have h1 : 1 ≤ rc.length + 1 - k := by omega
        exact_mod_cast Nat.lt_of_lt_of_le Nat.zero_lt_one h1
      have hFle1 : ∀ k : ℕ, 1 ≤ k → k ≤ rc.length →
          (Reliability.scenarios_covered runs ((⌊max_outage / dt⌋).toNat) k : ℚ) /
            ((rc.length : ℚ) - (k : ℚ) + 1) ≤ 1 := by
        intro k hk1 hk2
        rw [div_le_one (hden_pos k hk1 hk2), hfval k, hcast k hk1 hk2]
        exact_mod_cast Reliability.coverage_count_le rc.length k _ hlen hk1
      have hstep : ∀ k : ℕ, 1 ≤ k → k + 1 ≤ rc.length →
          (Reliability.scenarios_covered runs ((⌊max_outage / dt⌋).toNat)
              (k + 1) : ℚ) /
              ((rc.length : ℚ) - ((k + 1 : ℕ) : ℚ) + 1) ≤
            (Reliability.scenarios_covered runs ((⌊max_outage / dt⌋).toNat)
                k : ℚ) /
              ((rc.length : ℚ) - (k : ℚ) + 1) := by
        intro k hk1 hk2
        rw [div_le_div_iff₀ (hden_pos (k + 1) (by omega) hk2)
          (hden_pos k hk1 (by omega))]
        have e1 : (rc.length : ℚ) - (k : ℚ) + 1 =
            ((rc.length + 1 - k : ℕ) : ℚ) := hcast k hk1 (by omega)
        have e2 : (rc.length : ℚ) - ((k + 1 : ℕ) : ℚ) + 1 =
            ((rc.length - k : ℕ) : ℚ) := by
          rw [Nat.cast_sub (by omega)]
          push_cast
          ring
        rw [e1, e2, hfval k, hfval (k + 1)]
        have hnat := Reliability.coverage_count_step rc.length k
          (fun i => Reliability.noess_run max_outage (rc.drop i)) hlen
          (hshift k) hk1
        exact_mod_cast hnat
      have hmono : ∀ a : ℕ, 1 ≤ a → ∀ b : ℕ, a ≤ b → b ≤ rc.length →
          (Reliability.scenarios_covered runs ((⌊max_outage / dt⌋).toNat)
              b : ℚ) / ((rc.length : ℚ) - (b : ℚ) + 1) ≤
            (Reliability.scenarios_covered runs ((⌊max_outage / dt⌋).toNat)
                a : ℚ) / ((rc.length : ℚ) - (a : ℚ) + 1) := by
        intro a ha1 b
        induction b with
        | zero => intro hab _; omega
        | succ b ih =>
          intro hab hbn
          rcases Nat.lt_or_ge a (b + 1) with hlt | hge
          · have hab' : a ≤ b := by omega
            exact le_trans (hstep b (by omega) hbn) (ih hab' (by omega))
          · have hae : a = b + 1 := by omega
            subst hae
            exact le_refl _
      apply List.Pairwise.chain'
      rw [List.pairwise_cons]
      constructor
      · intro x hx
        obtain ⟨k, hk, rfl⟩ := List.mem_map.mp hx
        obtain ⟨i, hiK, rfl⟩ := List.mem_range'.mp hk
        exact hFle1 (1 + 1 * i) (by omega) (by omega)
      · rw [List.pairwise_map]
        refine List.Pairwise.imp_of_mem ?_ (List.pairwise_lt_range' 1 _)
        intro a b ha hb hab
        obtain ⟨i, hiK, rfl⟩ := List.mem_range'.mp ha
        obtain ⟨j, hjK, rfl⟩ := List.mem_range'.mp hb
        exact hmono (1 + 1 * i) (by omega) (1 + 1 * j) (by omega) (by omega)

/-- C4 witness: the builder on the two-point series `[-1, 1]` with `dt = 1`
and maximum outage duration 1 h returns the curve `[1, 1/2]`, whose head
is 1 and which is non-increasing. -/
theorem c4_curve_monotone_witness :
    (⌊(1 : ℚ) / 1⌋).toNat ≤ [(-1 : ℚ), 1].length ∧
      Reliability.load_coverage_probability_core 1 1 1 [] [-1, 1] [-1, 1]
          none = .ok [1, 1 / 2] ∧
        ([(1 : ℚ), 1 / 2].head? = some 1 ∧
          List.Chain' (fun a b => b ≤ a) [(1 : ℚ), 1 / 2]) := by
  have hcore : Reliability.load_coverage_probability_core 1 1 1 [] [-1, 1]
      [-1, 1] none = .ok [1, 1 / 2] := by
    norm_num [Reliability.load_coverage_probability_core,
      Reliability.simulate_and_bucket, Reliability.simulate_outage,
      Reliability.scenarios_covered, Reliability.frequency,
      bind, Except.bind, Except.map, pure, Except.pure, List.range_succ,
      List.range'_succ, List.mapM.loop]
  exact ⟨by norm_num, hcore,
    c4_curve_monotone 1 1 1 [] [-1, 1] [-1, 1] none [1, 1 / 2] (by norm_num)
      hcore⟩
